import Mathlib

/-!
Shallow embedding of TVM's Ethos-N translation-and-validation layer
(`src/relay/backend/contrib/ethosn/ethosn_api.cc`).

The C++ code converts quantized relay operator subgraphs (conv2d,
concatenate, split) into Ethos-N support-library descriptors while
accumulating validation errors, and exposes capability-query bindings
that short-circuit to `false` on any accumulated error.

Machine integers: the support-library descriptor slots are `uint32_t`;
they are modelled as `Nat` values obtained through an explicit
`mod 2^32` wrap (`toU32`), and the range check of `AsArray` compares
the source `int64_t` value against `uint32` max exactly as the C++
does.  Diagnostic messages are modelled as an inductive type carrying
the streamed payloads, one constructor per distinct `ErrStrm` message
in the source.
-/

namespace Ethosn

/-- Diagnostic messages produced by the translation layer, one
constructor per distinct message built via `ErrStrm` in the source. -/
inductive EMsg where
  /-- "dimensions=n, dimensions must be <= 4" (AsArray) -/
  | dimensionsTooMany (n : Nat)
  /-- "axis size=v, axis size must be <= max" (AsArray range check) -/
  | axisSizeTooLarge (v : Int)
  /-- "padding tuple size=n, padding tuple size must be \x7b1, 2, 4\x7d" (flat padding) -/
  | paddingTupleSize (n : Nat)
  /-- "padding tuple size=n, padding tuple size must = 4" (nested padding) -/
  | paddingTupleSizeNested (n : Nat)
  /-- "stride size=n, stride size must = 2" -/
  | strideSize (n : Nat)
  /-- "format=s, format must be \x7bNCHW, NHWC, HWIO, HWIM\x7d" -/
  | formatUnsupported (s : String)
  /-- "batch size=b, batch size must = 1" -/
  | batchSize (b : Nat)
  /-- "dtype=..., dtype must be either uint8 or int32" -/
  | dtypeUnsupported
  /-- "dilation=..., dilation must = [1, 1]" -/
  | dilationMustBe11 (d : List Int)
  /-- "both op and attr padding exist, must be either op/attr only or no padding" -/
  | bothOpAndAttrPadding
  /-- "expected constant data" (AsConstant) -/
  | expectedConstantData
deriving DecidableEq

/-- `EthosnError`: an ordered sequence of diagnostic messages.
Zero messages means success.  Declared in `ethosn_api.h` (outside
`src/`); modelled from the spec: construction from zero or one
message, associative order-preserving combine (the C++ `operator+=`),
boolean predicate "has at least one message" (the C++ `operator bool`). -/
structure EthosnError where
  msgs : List EMsg
deriving DecidableEq

/-- The zero-message (success) error value. -/
def EthosnError.empty : EthosnError := ⟨[]⟩

/-- An error holding a single message. -/
def EthosnError.single (m : EMsg) : EthosnError := ⟨[m]⟩

/-- The combine operation (C++ `operator+=` / `operator+`):
concatenates the message sequences in call order. -/
def EthosnError.combine (a b : EthosnError) : EthosnError := ⟨a.msgs ++ b.msgs⟩

/-- Boolean conversion of an error: true iff it holds at least one message. -/
def EthosnError.hasError (e : EthosnError) : Bool := !e.msgs.isEmpty

@[simp] lemma EthosnError.msgs_combine (a b : EthosnError) :
    (a.combine b).msgs = a.msgs ++ b.msgs := rfl

@[simp] lemma EthosnError.msgs_empty : EthosnError.empty.msgs = [] := rfl

@[simp] lemma EthosnError.msgs_single (m : EMsg) :
    (EthosnError.single m).msgs = [m] := rfl

@[simp] lemma EthosnError.combine_empty (a : EthosnError) :
    a.combine .empty = a := by
  cases a; simp [combine, empty]

@[simp] lemma EthosnError.empty_combine (a : EthosnError) :
    EthosnError.empty.combine a = a := by
  cases a; simp [combine, empty]

@[simp] lemma EthosnError.hasError_empty : EthosnError.empty.hasError = false := rfl

@[simp] lemma EthosnError.hasError_single (m : EMsg) :
    (EthosnError.single m).hasError = true := rfl

lemma EthosnError.hasError_iff (a : EthosnError) :
    a.hasError = true ↔ a.msgs ≠ [] := by
  cases a with
  | mk l => cases l <;> simp [hasError]

/-- `uint32` maximum, the `std::numeric_limits<uint32_t>::max()` bound
used by the `AsArray` range check. -/
def u32max : Int := 4294967295

/-- `static_cast<uint32_t>` of an `int64` value: wrap modulo `2^32`. -/
def toU32 (v : Int) : Nat := (v % 4294967296).toNat

lemma toU32_of_nonneg_le (v : Int) (h0 : 0 ≤ v) (h1 : v ≤ u32max) :
    toU32 v = v.toNat := by
  have h1' : v ≤ 4294967295 := by simpa [u32max] using h1
  have : v % 4294967296 = v := Int.emod_eq_of_lt h0 (by omega)
  simp [toU32, this]

/-- A fixed-capacity array of 4 `uint32` slots
(`std::array<uint32_t, 4>` / `sl::TensorShape`). -/
structure Dims4 where
  a0 : Nat
  a1 : Nat
  a2 : Nat
  a3 : Nat
deriving DecidableEq

/-- Read slot `i` of the 4-slot array (slots past 3 never read in the source). -/
def Dims4.get (v : Dims4) : Nat → Nat
  | 0 => v.a0
  | 1 => v.a1
  | 2 => v.a2
  | 3 => v.a3
  | _ + 4 => 0

/-- Write slot `i` of the 4-slot array (writes past 3 never happen in the source). -/
def Dims4.set (v : Dims4) : Nat → Nat → Dims4
  | 0, x => ⟨x, v.a1, v.a2, v.a3⟩
  | 1, x => ⟨v.a0, x, v.a2, v.a3⟩
  | 2, x => ⟨v.a0, v.a1, x, v.a3⟩
  | 3, x => ⟨v.a0, v.a1, v.a2, x⟩
  | _ + 4, _ => v

lemma Dims4.get_set_self (v : Dims4) (x : Nat) (i : Nat) (h : i < 4) :
    (v.set i x).get i = x := by
  interval_cases i <;> rfl

lemma Dims4.get_set_ne (v : Dims4) (x : Nat) (i j : Nat) (h : j ≠ i) :
    (v.set i x).get j = v.get j := by
  rcases i with _ | _ | _ | _ | i <;> rcases j with _ | _ | _ | _ | j <;>
    simp_all [Dims4.get, Dims4.set]

/-- Loop body of `EthosnAPI::AsArray`: walk the remaining elements with
running index `i`; per element, fail with a range message if the value
exceeds `uint32` max (returning at once, leaving later slots untouched),
else write the cast value into slot `i`. -/
def asArrayGo : List Int → Nat → Dims4 → EthosnError × Dims4
  | [], _, v => (.empty, v)
  | a :: rest, i, v =>
      if u32max < a then (.single (.axisSizeTooLarge a), v)
      else asArrayGo rest (i + 1) (v.set i (toU32 a))

/-- `EthosnAPI::AsArray<IndexT, uint32_t>`: reject sequences longer
than 4, else copy elements into the 4-slot array with per-element
range checking. -/
def AsArray (arr : List Int) (v : Dims4) : EthosnError × Dims4 :=
  if 4 < arr.length then (.single (.dimensionsTooMany arr.length), v)
  else asArrayGo arr 0 v

/-- Canonical padding descriptor `sl::Padding`
(top, bottom, left, right margins, each `uint32`).  The support
library's default constructor zero-initializes all four margins. -/
structure Padding where
  top : Nat
  bottom : Nat
  left : Nat
  right : Nat
deriving DecidableEq

/-- The all-zero padding, `sl::Padding({0, 0, 0, 0})`. -/
def Padding.zero : Padding := ⟨0, 0, 0, 0⟩

/-- Stride descriptor `sl::Stride(x, y)`: x (width-wise) first,
then y (height-wise). -/
structure Stride where
  x : Nat
  y : Nat
deriving DecidableEq

/-- Support-library tensor data formats. -/
inductive DataFormat where
  | NCHW
  | NHWC
  | HWIOLayout
  | HWIM
deriving DecidableEq

/-- Support-library element data types accepted by the translator. -/
inductive SlDataType where
  | UINT8_QUANTIZED
  | INT32_QUANTIZED
deriving DecidableEq

/-- Quantization info: (zero point, scale).  Scales are `float` in the
source; modelled as exact rationals (no claim depends on rounding). -/
structure QuantizationInfo where
  zeroPoint : Int
  scale : Rat
deriving DecidableEq

/-- A TVM element data type: type-code, bit width, vector lanes
(`is_scalar` in the source is `lanes == 1`). -/
inductive DTypeCode where
  | int
  | uint
  | float
deriving DecidableEq

/-- TVM `DataType` triple. -/
structure TvmDType where
  code : DTypeCode
  bits : Nat
  lanes : Nat
deriving DecidableEq

/-- Support-library tensor descriptor `sl::TensorInfo`. -/
structure TensorInfo where
  shape : Dims4
  dataType : SlDataType
  dataFormat : DataFormat
  qInfo : QuantizationInfo
deriving DecidableEq

/-- `EthosnAPI::Tvm2Npu(Array<IndexExpr>, sl::Padding*)`: flat padding
conversion.  Runs `AsArray` first (returning its error, padding output
untouched, on failure), then dispatches on the input length:
1 → uniform; 2 → (h, h, w, w); 4 → reorder (top, left, bottom, right)
to (top, bottom, left, right); otherwise a tuple-size error. -/
def Tvm2NpuPad (padding : List Int) (npu : Padding) : EthosnError × Padding :=
  let r := AsArray padding ⟨0, 0, 0, 0⟩
  if r.1.hasError then (r.1, npu)
  else
    let dim := r.2
    match padding.length with
    | 1 => (.empty, ⟨dim.get 0, dim.get 0, dim.get 0, dim.get 0⟩)
    | 2 => (.empty, ⟨dim.get 0, dim.get 0, dim.get 1, dim.get 1⟩)
    | 4 => (.empty, ⟨dim.get 0, dim.get 2, dim.get 1, dim.get 3⟩)
    | n => (.single (.paddingTupleSize n), npu)

/-- `EthosnAPI::Tvm2Npu(Array<Array<IndexExpr>>, sl::Padding*)`: nested
per-dimension padding conversion (batch/height/width/channel low-high
pairs).  Requires exactly 4 outer entries, extracts the height and
width pairs (the source indexes `padding[1]` and `padding[2]` directly;
the nested 4-by-2 form always has two entries per pair), discards the
batch and channel pairs. -/
def Tvm2NpuPadNested (padding : List (List Int)) (npu : Padding) :
    EthosnError × Padding :=
  if padding.length ≠ 4 then
    (.single (.paddingTupleSizeNested padding.length), npu)
  else
    let reduced := [(padding.getD 1 []).getD 0 0, (padding.getD 1 []).getD 1 0,
                    (padding.getD 2 []).getD 0 0, (padding.getD 2 []).getD 1 0]
    let r := AsArray reduced ⟨0, 0, 0, 0⟩
    if r.1.hasError then (r.1, npu)
    else (.empty, ⟨r.2.get 0, r.2.get 1, r.2.get 2, r.2.get 3⟩)

/-- `EthosnAPI::Tvm2Npu(Array<IndexExpr>, sl::Stride*)`: requires
exactly 2 elements, then builds `sl::Stride(dim[1], dim[0])` — the IR
(height, width) order is swapped to (width, height). -/
def Tvm2NpuStride (strides : List Int) (npu : Stride) : EthosnError × Stride :=
  if strides.length ≠ 2 then (.single (.strideSize strides.length), npu)
  else
    let r := AsArray strides ⟨0, 0, 0, 0⟩
    if r.1.hasError then (r.1, npu)
    else (.empty, ⟨r.2.get 1, r.2.get 0⟩)

/-- `EthosnAPI::Tvm2Npu(const std::string&, sl::DataFormat*)`:
string-to-enum lookup over the four supported layout names. -/
def Tvm2NpuFormat (dformat : String) (cur : DataFormat) :
    EthosnError × DataFormat :=
  if dformat = "NCHW" then (.empty, .NCHW)
  else if dformat = "NHWC" then (.empty, .NHWC)
  else if dformat = "HWIO" then (.empty, .HWIOLayout)
  else if dformat = "HWIM" then (.empty, .HWIM)
  else (.single (.formatUnsupported dformat), cur)

/-- `EthosnAPI::Tvm2Npu(Array<IndexExpr>, sl::TensorShape*)`: delegate
to `AsArray` writing directly into the output shape, then additionally
require the first (batch) slot to equal 1, combining a batch-size
error otherwise. -/
def Tvm2NpuShape (shape : List Int) (npu : Dims4) : EthosnError × Dims4 :=
  let r := AsArray shape npu
  if r.2.get 0 ≠ 1 then
    (r.1.combine (.single (.batchSize (r.2.get 0))), r.2)
  else r

/-- `EthosnAPI::Tvm2Npu(const tvm::DataType&, sl::DataType*)`: accept
only scalar uint8 (→ UINT8_QUANTIZED) or scalar int32
(→ INT32_QUANTIZED); anything else fails, output untouched. -/
def Tvm2NpuDType (dtype : TvmDType) (cur : SlDataType) :
    EthosnError × SlDataType :=
  if dtype.lanes = 1 then
    if dtype.code = .uint ∧ dtype.bits = 8 then (.empty, .UINT8_QUANTIZED)
    else if dtype.code = .int ∧ dtype.bits = 32 then (.empty, .INT32_QUANTIZED)
    else (.single .dtypeUnsupported, cur)
  else (.single .dtypeUnsupported, cur)

/-- `EthosnAPI::Tvm2Npu(int32_t, float, sl::QuantizationInfo*)`:
always succeeds, packaging the pair verbatim. -/
def Tvm2NpuQuant (zeroPoint : Int) (scale : Rat) :
    EthosnError × QuantizationInfo :=
  (.empty, ⟨zeroPoint, scale⟩)

/-- `EthosnAPI::AsConstant<T>`: succeeds with the scalar value when the
expression is a materialized constant (modelled as `some v`), else
fails with "expected constant data" leaving the output at the caller's
(indeterminate in C++) previous value `dflt`. -/
def AsConstant {α : Type} (e : Option α) (dflt : α) : EthosnError × α :=
  match e with
  | none => (.single .expectedConstantData, dflt)
  | some v => (.empty, v)

/-- The pieces of the conv2d call tree
`requantize(bias_add(conv2d(input[, pad(input)]), bias), scale, zp)`
that `EthosnAPI::QnnConv2d` reads.  `padWidth` is `some` exactly when
`conv->args[0]` is an `nn.pad` call (its `pad_width` attribute);
constant operands are `some v` when materialized constants and `none`
otherwise; `channels` is the declared output-channel attribute when
defined (an `IntImm`, compared to `groups` by structural equality). -/
structure ConvCallExpr where
  padWidth : Option (List (List Int))
  padInputShape : List Int
  padInputDtype : TvmDType
  convInputShape : List Int
  convInputDtype : TvmDType
  inputZeroPoint : Option Int
  kernelZeroPoint : Option Int
  inputScale : Option Rat
  kernelScale : Option Rat
  outputZeroPoint : Option Int
  outputScale : Option Rat
  attrPadding : List Int
  strides : List Int
  dilation : List Int
  groups : Int
  channels : Option Int
  weightsShape : List Int
  weightsDtype : TvmDType
deriving DecidableEq

/-- `sl::ConvolutionInfo(padding, stride, output quantization)`. -/
structure ConvolutionInfo where
  padding : Padding
  stride : Stride
  outputQInfo : QuantizationInfo
deriving DecidableEq

/-- The descriptor set `ConvolutionParams` populated by `QnnConv2d`
(the raw weight/bias buffer pointers are opaque payloads never
inspected by the translator and are not modelled). -/
structure ConvolutionParams where
  conv_info : ConvolutionInfo
  activation_info : TensorInfo
  weights_info : TensorInfo
  bias_info : TensorInfo
  is_depthwise : Bool
deriving DecidableEq

/-- Padding resolution of `QnnConv2d` (source lines 78-89): when a
standalone pad operator is present, first convert the attribute
padding into the default-zero local (discarding that conversion's
error), emit the "both op and attr padding exist" error if the result
is non-zero, then convert the pad operator's nested `pad_width` on top
of it; with no pad operator, convert the attribute padding alone. -/
def convPadResolve (padWidth : Option (List (List Int)))
    (attrPadding : List Int) : EthosnError × Padding :=
  match padWidth with
  | some pw =>
      let p1 := (Tvm2NpuPad attrPadding Padding.zero).2
      let e1 : EthosnError :=
        if p1 ≠ Padding.zero then .single .bothOpAndAttrPadding else .empty
      let rn := Tvm2NpuPadNested pw p1
      (e1.combine rn.1, rn.2)
  | none => Tvm2NpuPad attrPadding Padding.zero

/-- Dilation check of `QnnConv2d` (source lines 93-98): extract the
dilation into a `{1,1,1,1}`-initialized array (error discarded) and
require a 2-element `[1, 1]` dilation. -/
def convDilationErr (dilation : List Int) : EthosnError :=
  let d := (AsArray dilation ⟨1, 1, 1, 1⟩).2
  if dilation.length ≠ 2 ∨ d.get 0 ≠ 1 ∨ d.get 1 ≠ 1 then
    .single (.dilationMustBe11 dilation)
  else .empty

/-- Depthwise flag (source lines 117-119): the channels attribute is
defined, structurally equal to the group count, and the group count is
not 1. -/
def convIsDepthwise (channels : Option Int) (groups : Int) : Bool :=
  channels.isSome && (channels == some groups) && (groups != 1)

/-- `EthosnAPI::QnnConv2d`: translate the conv2d call tree into a
`ConvolutionParams` descriptor set, accumulating every validation
error in source order (quantization constants, quantization infos,
padding resolution, stride, dilation, activation shape and dtype,
weights dtype and format).  The weights-shape conversion error is
deliberately discarded (weights have no batch axis); the
default-initialized C++ shape locals are modelled as `{1,1,1,1}`. -/
def QnnConv2d (e : ConvCallExpr) : EthosnError × ConvolutionParams :=
  let rIzp := AsConstant e.inputZeroPoint 0
  let rKzp := AsConstant e.kernelZeroPoint 0
  let rOzp := AsConstant e.outputZeroPoint 0
  let rIs := AsConstant e.inputScale 0
  let rKs := AsConstant e.kernelScale 0
  let rOs := AsConstant e.outputScale 0
  let err0 :=
    ((((rIzp.1.combine rKzp.1).combine rOzp.1).combine rIs.1).combine
      rKs.1).combine rOs.1
  let rDq := Tvm2NpuQuant rIzp.2 rIs.2
  let rWq := Tvm2NpuQuant rKzp.2 rKs.2
  let rBq := Tvm2NpuQuant 0 (rDq.2.scale * rWq.2.scale)
  let rOq := Tvm2NpuQuant rOzp.2 rOs.2
  let err1 := (((err0.combine rDq.1).combine rWq.1).combine rBq.1).combine rOq.1
  let rPad := convPadResolve e.padWidth e.attrPadding
  let err2 := err1.combine rPad.1
  let rStr := Tvm2NpuStride e.strides ⟨0, 0⟩
  let err3 := err2.combine rStr.1
  let err4 := err3.combine (convDilationErr e.dilation)
  let conv_info : ConvolutionInfo := ⟨rPad.2, rStr.2, rOq.2⟩
  let dataShape := if e.padWidth.isSome then e.padInputShape else e.convInputShape
  let dataDtype := if e.padWidth.isSome then e.padInputDtype else e.convInputDtype
  let rASh := Tvm2NpuShape dataShape ⟨1, 1, 1, 1⟩
  let rADt := Tvm2NpuDType dataDtype .UINT8_QUANTIZED
  let err5 := (err4.combine rASh.1).combine rADt.1
  let activation_info : TensorInfo := ⟨rASh.2, rADt.2, .NHWC, rDq.2⟩
  let dw := convIsDepthwise e.channels e.groups
  let rWSh := Tvm2NpuShape e.weightsShape ⟨1, 1, 1, 1⟩
  let rWDt := Tvm2NpuDType e.weightsDtype .UINT8_QUANTIZED
  let rWFm := Tvm2NpuFormat (if dw then "HWIM" else "HWIO") .NCHW
  let err6 := (err5.combine rWDt.1).combine rWFm.1
  let weights_info : TensorInfo := ⟨rWSh.2, rWDt.2, rWFm.2, rWq.2⟩
  let bias_info : TensorInfo :=
    ⟨⟨1, 1, 1, if dw then rWSh.2.get 2 else rWSh.2.get 3⟩,
      .INT32_QUANTIZED, .NHWC, rBq.2⟩
  (err6, ⟨conv_info, activation_info, weights_info, bias_info, dw⟩)

/-- The pieces of the concatenate call
`concatenate(tuple_of_inputs, tuple_of_scales, tuple_of_zero_points,
out_scale, out_zp)` that `EthosnAPI::Concatenate` reads.  The scale
and zero-point tuple entries are `some v` when constant; the input
tensor types are (shape, dtype) pairs.  The source indexes the three
tuples in lockstep, so they are assumed aligned. -/
structure ConcatInput where
  axis : Int
  outputScale : Option Rat
  outputZeroPoint : Option Int
  inputScales : List (Option Rat)
  inputZeroPoints : List (Option Int)
  inputTensors : List (List Int × TvmDType)
deriving DecidableEq

/-- `sl::ConcatenationInfo` fields set by the translator. -/
structure ConcatInfo where
  axis : Int
  outputQInfo : QuantizationInfo
deriving DecidableEq

/-- The descriptor set populated by `EthosnAPI::Concatenate`. -/
structure ConcatenateParams where
  concat_info : ConcatInfo
  input_infos : List TensorInfo
deriving DecidableEq

/-- Per-input loop of `EthosnAPI::Concatenate` (source lines 157-173):
for each scale entry in tuple order, pair it with the same-index
zero point and tensor type, extract the constants, convert shape
(into a `{1,1,1,1}` local) and dtype, and emit a tensor descriptor.
The uninitialized C++ dtype local is modelled as `UINT8_QUANTIZED`. -/
def concatLoop (e : ConcatInput) :
    List (Option Rat) → Nat → EthosnError × List TensorInfo
  | [], _ => (.empty, [])
  | s :: rest, idx =>
      let inputT := e.inputTensors.getD idx ([], ⟨.uint, 8, 1⟩)
      let zp := e.inputZeroPoints.getD idx none
      let rS := AsConstant s 0
      let rZ := AsConstant zp 0
      let rSh := Tvm2NpuShape inputT.1 ⟨1, 1, 1, 1⟩
      let rDt := Tvm2NpuDType inputT.2 .UINT8_QUANTIZED
      let errHere := ((rS.1.combine rZ.1).combine rSh.1).combine rDt.1
      let info : TensorInfo := ⟨rSh.2, rDt.2, .NHWC, ⟨rZ.2, rS.2⟩⟩
      let rRest := concatLoop e rest (idx + 1)
      (errHere.combine rRest.1, info :: rRest.2)

/-- `EthosnAPI::Concatenate`: set the axis, extract the output
scale/zero-point constants, then append one tensor descriptor per
input in tuple order. -/
def Concatenate (e : ConcatInput) (p : ConcatenateParams) :
    EthosnError × ConcatenateParams :=
  let rS := AsConstant e.outputScale 0
  let rZ := AsConstant e.outputZeroPoint 0
  let err := rS.1.combine rZ.1
  let rLoop := concatLoop e e.inputScales 0
  (err.combine rLoop.1,
    ⟨⟨e.axis, ⟨rZ.2, rS.2⟩⟩, p.input_infos ++ rLoop.2⟩)

/-- The `indices_or_sections` attribute of split: either a single
section count (`IntImm`) or a sequence of cut indices. -/
inductive IndicesOrSections where
  | sections (n : Int)
  | indices (is : List Int)
deriving DecidableEq

/-- The pieces of the split call that `EthosnAPI::Split` reads:
the input tensor's declared shape and dtype, and the `axis` and
`indices_or_sections` attributes. -/
structure SplitInput where
  shape : List Int
  dtype : TvmDType
  axis : Nat
  ios : IndicesOrSections
deriving DecidableEq

/-- `sl::SplitInfo` fields set by the translator. -/
structure SplitInfo where
  axis : Nat
  sizes : List Int
deriving DecidableEq

/-- The descriptor set populated by `EthosnAPI::Split`; the initial
`input_info` matters because the translator reuses its data format and
quantization info fields. -/
structure SplitParams where
  input_info : TensorInfo
  split_info : SplitInfo
deriving DecidableEq

/-- Index-list loop of `EthosnAPI::Split` (source lines 198-202): push
the difference of each cut index with the running `last_index`. -/
def splitIndicesSizes : List Int → Int → List Int
  | [], _ => []
  | i :: rest, last => (i - last) :: splitIndicesSizes rest i

/-- `EthosnAPI::Split`: convert the input shape (into a `{1,1,1,1}`
local) and dtype, rebuild `input_info` keeping the prior data format
and quantization info, set the axis, and push the segment sizes: for a
section count n, n copies of `extent / n` (C++ truncating integer
division); for cut indices, consecutive differences plus a final
segment up to the axis extent. -/
def Split (e : SplitInput) (p : SplitParams) : EthosnError × SplitParams :=
  let rSh := Tvm2NpuShape e.shape ⟨1, 1, 1, 1⟩
  let rDt := Tvm2NpuDType e.dtype .UINT8_QUANTIZED
  let err := rSh.1.combine rDt.1
  let input_info : TensorInfo :=
    ⟨rSh.2, rDt.2, p.input_info.dataFormat, p.input_info.qInfo⟩
  let extent : Int := rSh.2.get e.axis
  let sizes :=
    match e.ios with
    | .sections n => List.replicate n.toNat (extent.tdiv n)
    | .indices is => splitIndicesSizes is 0 ++ [extent - is.getLastD 0]
  (err, ⟨input_info, ⟨e.axis, p.split_info.sizes ++ sizes⟩⟩)

/-- Support-library default-constructed `sl::TensorInfo`, used for the
fresh parameter structures the capability bindings build (the claims
under study never depend on these default field values). -/
def defaultTensorInfo : TensorInfo :=
  ⟨⟨1, 1, 1, 1⟩, .UINT8_QUANTIZED, .NHWC, ⟨0, 1⟩⟩

/-- Default-constructed `ConcatenateParams` of the concatenate binding. -/
def defaultConcatParams : ConcatenateParams := ⟨⟨0, ⟨0, 1⟩⟩, []⟩

/-- Default-constructed `SplitParams` of the split binding
(`m_Sizes` starts empty). -/
def defaultSplitParams : SplitParams := ⟨defaultTensorInfo, ⟨0, []⟩⟩

/-- The `relay.ethos-n.support.conv2d` binding: run `QnnConv2d` on a
fresh parameter structure and dispatch on the translated
`is_depthwise` flag, short-circuiting to `false` on any accumulated
error before the oracle (`IsDepthwiseConvolutionSupported` or
`IsConvolutionSupported`, both opaque) is consulted. -/
def supportConv2d
    (oracleConv oracleDw : TensorInfo → TensorInfo → ConvolutionInfo → TensorInfo → Bool)
    (e : ConvCallExpr) : Bool :=
  let r := QnnConv2d e
  if r.2.is_depthwise then
    !r.1.hasError &&
      oracleDw r.2.bias_info r.2.weights_info r.2.conv_info r.2.activation_info
  else
    !r.1.hasError &&
      oracleConv r.2.bias_info r.2.weights_info r.2.conv_info r.2.activation_info

/-- The `relay.ethos-n.support.concatenate` binding:
`!err && IsConcatenationSupported(input_infos, concat_info)` with the
oracle opaque. -/
def supportConcatenate (oracle : List TensorInfo → ConcatInfo → Bool)
    (e : ConcatInput) : Bool :=
  let r := Concatenate e defaultConcatParams
  !r.1.hasError && oracle r.2.input_infos r.2.concat_info

/-- The `relay.ethos-n.support.split` binding:
`!err && IsSplitSupported(input_info, split_info)` with the oracle
opaque. -/
def supportSplit (oracle : TensorInfo → SplitInfo → Bool)
    (e : SplitInput) : Bool :=
  let r := Split e defaultSplitParams
  !r.1.hasError && oracle r.2.input_info r.2.split_info

lemma asArrayGo_fst_ok : ∀ (xs : List Int) (i : Nat) (v : Dims4),
    (∀ x ∈ xs, x ≤ u32max) → (asArrayGo xs i v).1 = .empty
  | [], _, _, _ => rfl
  | a :: t, i, v, h => by
      have ha : ¬ u32max < a := not_lt.mpr (h a (by simp))
      rw [asArrayGo, if_neg ha]
      exact asArrayGo_fst_ok t (i + 1) _ (fun x hx => h x (by simp [hx]))

lemma asArrayGo_get_lt : ∀ (xs : List Int) (i : Nat) (v : Dims4) (j : Nat),
    j < i → (asArrayGo xs i v).2.get j = v.get j
  | [], _, _, _, _ => rfl
  | a :: t, i, v, j, hj => by
      rw [asArrayGo]
      split
      · rfl
      · rw [asArrayGo_get_lt t (i + 1) _ j (by omega),
          Dims4.get_set_ne _ _ _ _ (by omega)]

lemma asArrayGo_get_ge : ∀ (xs : List Int) (i : Nat) (v : Dims4) (j : Nat),
    i + xs.length ≤ j → (asArrayGo xs i v).2.get j = v.get j
  | [], _, _, _, _ => rfl
  | a :: t, i, v, j, hj => by
      have hj' : i + t.length + 1 ≤ j := by simpa [Nat.add_comm, Nat.add_left_comm] using hj
      rw [asArrayGo]
      split
      · rfl
      · rw [asArrayGo_get_ge t (i + 1) _ j (by omega),
          Dims4.get_set_ne _ _ _ _ (by omega)]

lemma asArrayGo_get_write : ∀ (xs : List Int) (i : Nat) (v : Dims4) (j : Nat),
    (∀ x ∈ xs, x ≤ u32max) → i + xs.length ≤ 4 → j < xs.length →
    (asArrayGo xs i v).2.get (i + j) = toU32 (xs.getD j 0)
  | [], _, _, j, _, _, hj => absurd hj (by simp)
  | a :: t, i, v, j, h, hle, hj => by
      have ha : ¬ u32max < a := not_lt.mpr (h a (by simp))
      rw [asArrayGo, if_neg ha]
      match j with
      | 0 =>
          show (asArrayGo t (i + 1) (v.set i (toU32 a))).2.get i = toU32 a
          rw [asArrayGo_get_lt t (i + 1) _ i (by omega)]
          exact Dims4.get_set_self v (toU32 a) i (by simp at hle; omega)
      | j + 1 =>
          have harith : i + (j + 1) = (i + 1) + j := by omega
          rw [harith, asArrayGo_get_write t (i + 1) _ j
            (fun x hx => h x (by simp [hx]))
            (by simp at hle ⊢; omega) (by simp at hj; omega)]
          simp

lemma asArrayGo_bad : ∀ (xs : List Int) (i : Nat) (v : Dims4) (k : Nat),
    k < xs.length → (∀ j, j < k → xs.getD j 0 ≤ u32max) →
    u32max < xs.getD k 0 → i + xs.length ≤ 4 →
    (asArrayGo xs i v).1 = .single (.axisSizeTooLarge (xs.getD k 0)) ∧
      (∀ j, j < k → (asArrayGo xs i v).2.get (i + j) = toU32 (xs.getD j 0))
  | [], _, _, k, hk, _, _, _ => absurd hk (by simp)
  | a :: t, i, v, k, hk, hok, hbad, hle => by
      match k with
      | 0 =>
          simp only [List.getD_cons_zero] at hbad
          rw [asArrayGo, if_pos hbad]
          exact ⟨rfl, fun j hj => absurd hj (by omega)⟩
      | k + 1 =>
          have ha : ¬ u32max < a := by
            have := hok 0 (by omega)
            simpa using not_lt.mpr this
          rw [asArrayGo, if_neg ha]
          have ih := asArrayGo_bad t (i + 1) (v.set i (toU32 a)) k
            (by simp at hk; omega)
            (fun j hj => by simpa using hok (j + 1) (by omega))
            (by simpa using hbad)
            (by simp at hle ⊢; omega)
          refine ⟨by simpa using ih.1, fun j hj => ?_⟩
          match j with
          | 0 =>
              show (asArrayGo t (i + 1) (v.set i (toU32 a))).2.get i = toU32 a
              rw [asArrayGo_get_lt t (i + 1) _ i (by omega)]
              exact Dims4.get_set_self v (toU32 a) i (by simp at hle; omega)
          | j + 1 =>
              have harith : i + (j + 1) = (i + 1) + j := by omega
              rw [harith, ih.2 j (by omega)]
              simp

lemma asArrayGo_hasError : ∀ (xs : List Int) (i : Nat) (v : Dims4),
    (asArrayGo xs i v).1.hasError = true ↔ ∃ x ∈ xs, u32max < x
  | [], _, _ => by simp [asArrayGo]
  | a :: t, i, v => by
      rw [asArrayGo]
      split
      · rename_i h
        simp only [EthosnError.hasError_single, true_iff]
        exact ⟨a, by simp, h⟩
      · rename_i h
        rw [asArrayGo_hasError t (i + 1) _]
        simp only [List.mem_cons]
        constructor
        · rintro ⟨x, hx, hxl⟩; exact ⟨x, Or.inr hx, hxl⟩
        · rintro ⟨x, hx, hxl⟩
          rcases hx with rfl | hx
          · exact absurd hxl h
          · exact ⟨x, hx, hxl⟩

lemma asArrayGo_msgs_cases : ∀ (xs : List Int) (i : Nat) (v : Dims4),
    (asArrayGo xs i v).1 = .empty ∨
      ∃ a, (asArrayGo xs i v).1 = .single (.axisSizeTooLarge a)
  | [], _, _ => Or.inl rfl
  | a :: t, i, v => by
      rw [asArrayGo]
      split
      · exact Or.inr ⟨a, rfl⟩
      · exact asArrayGo_msgs_cases t (i + 1) _

lemma AsArray_msgs_cases (arr : List Int) (v : Dims4) :
    (AsArray arr v).1 = .empty ∨
      (∃ a, (AsArray arr v).1 = .single (.axisSizeTooLarge a)) ∨
      (AsArray arr v).1 = .single (.dimensionsTooMany arr.length) := by
  rw [AsArray]
  split
  · exact Or.inr (Or.inr rfl)
  · rcases asArrayGo_msgs_cases arr 0 v with h | ⟨a, h⟩
    · exact Or.inl h
    · exact Or.inr (Or.inl ⟨a, h⟩)

lemma AsArray_ok (arr : List Int) (v : Dims4)
    (hlen : arr.length ≤ 4) (h : ∀ x ∈ arr, x ≤ u32max) :
    (AsArray arr v).1 = .empty := by
  rw [AsArray, if_neg (by omega)]
  exact asArrayGo_fst_ok arr 0 v h

lemma AsArray_get_write (arr : List Int) (v : Dims4) (j : Nat)
    (hlen : arr.length ≤ 4) (h : ∀ x ∈ arr, x ≤ u32max) (hj : j < arr.length) :
    (AsArray arr v).2.get j = toU32 (arr.getD j 0) := by
  rw [AsArray, if_neg (by omega)]
  simpa using asArrayGo_get_write arr 0 v j h (by omega) hj

lemma AsArray_get_ge (arr : List Int) (v : Dims4) (j : Nat)
    (hlen : arr.length ≤ 4) (hj : arr.length ≤ j) :
    (AsArray arr v).2.get j = v.get j := by
  rw [AsArray, if_neg (by omega)]
  exact asArrayGo_get_ge arr 0 v j (by omega)

lemma AsArray_hasError_iff (arr : List Int) (v : Dims4) (hlen : arr.length ≤ 4) :
    (AsArray arr v).1.hasError = true ↔ ∃ x ∈ arr, u32max < x := by
  rw [AsArray, if_neg (by omega)]
  exact asArrayGo_hasError arr 0 v

@[simp] lemma Tvm2NpuQuant_fst (z : Int) (s : Rat) :
    (Tvm2NpuQuant z s).1 = .empty := rfl

@[simp] lemma both_not_mem_AsArray (arr : List Int) (v : Dims4) :
    EMsg.bothOpAndAttrPadding ∉ (AsArray arr v).1.msgs := by
  rcases AsArray_msgs_cases arr v with h | ⟨a, h⟩ | h <;> simp [h]

@[simp] lemma both_not_mem_AsConstant {α : Type} (x : Option α) (d : α) :
    EMsg.bothOpAndAttrPadding ∉ (AsConstant x d).1.msgs := by
  cases x <;> simp [AsConstant]

@[simp] lemma both_not_mem_Tvm2NpuPad (l : List Int) (npu : Padding) :
    EMsg.bothOpAndAttrPadding ∉ (Tvm2NpuPad l npu).1.msgs := by
  simp only [Tvm2NpuPad]
  split
  · exact both_not_mem_AsArray _ _
  · split <;> simp

@[simp] lemma both_not_mem_Tvm2NpuPadNested (l : List (List Int)) (npu : Padding) :
    EMsg.bothOpAndAttrPadding ∉ (Tvm2NpuPadNested l npu).1.msgs := by
  simp only [Tvm2NpuPadNested]
  split
  · simp
  · split
    · exact both_not_mem_AsArray _ _
    · simp

@[simp] lemma both_not_mem_Tvm2NpuStride (l : List Int) (npu : Stride) :
    EMsg.bothOpAndAttrPadding ∉ (Tvm2NpuStride l npu).1.msgs := by
  simp only [Tvm2NpuStride]
  split
  · simp
  · split
    · exact both_not_mem_AsArray _ _
    · simp

@[simp] lemma both_not_mem_Tvm2NpuShape (l : List Int) (npu : Dims4) :
    EMsg.bothOpAndAttrPadding ∉ (Tvm2NpuShape l npu).1.msgs := by
  simp only [Tvm2NpuShape]
  split
  · simp [both_not_mem_AsArray l npu]
  · exact both_not_mem_AsArray l npu

@[simp] lemma both_not_mem_Tvm2NpuDType (d : TvmDType) (cur : SlDataType) :
    EMsg.bothOpAndAttrPadding ∉ (Tvm2NpuDType d cur).1.msgs := by
  simp only [Tvm2NpuDType]
  split
  · split
    · simp
    · split <;> simp
  · simp

@[simp] lemma both_not_mem_Tvm2NpuFormat (s : String) (cur : DataFormat) :
    EMsg.bothOpAndAttrPadding ∉ (Tvm2NpuFormat s cur).1.msgs := by
  simp only [Tvm2NpuFormat]
  split
  · simp
  · split
    · simp
    · split
      · simp
      · split <;> simp

@[simp] lemma both_not_mem_convDilationErr (d : List Int) :
    EMsg.bothOpAndAttrPadding ∉ (convDilationErr d).msgs := by
  simp only [convDilationErr]
  split <;> simp

lemma convPadResolve_none (attr : List Int) :
    convPadResolve none attr = Tvm2NpuPad attr Padding.zero := rfl

lemma convPadResolve_snd_some (pw : List (List Int)) (attr : List Int) :
    (convPadResolve (some pw) attr).2 =
      (Tvm2NpuPadNested pw (Tvm2NpuPad attr Padding.zero).2).2 := rfl

lemma both_mem_convPadResolve_some (pw : List (List Int)) (attr : List Int) :
    EMsg.bothOpAndAttrPadding ∈ (convPadResolve (some pw) attr).1.msgs ↔
      (Tvm2NpuPad attr Padding.zero).2 ≠ Padding.zero := by
  by_cases h : (Tvm2NpuPad attr Padding.zero).2 = Padding.zero <;>
    simp [convPadResolve, h]

lemma QnnConv2d_padding (e : ConvCallExpr) :
    (QnnConv2d e).2.conv_info.padding =
      (convPadResolve e.padWidth e.attrPadding).2 := rfl

lemma QnnConv2d_is_depthwise (e : ConvCallExpr) :
    (QnnConv2d e).2.is_depthwise = convIsDepthwise e.channels e.groups := rfl

lemma QnnConv2d_weights_format (e : ConvCallExpr) :
    (QnnConv2d e).2.weights_info.dataFormat =
      (Tvm2NpuFormat
        (if convIsDepthwise e.channels e.groups then "HWIM" else "HWIO")
        .NCHW).2 := rfl

lemma Tvm2NpuFormat_HWIM (c : DataFormat) :
    Tvm2NpuFormat "HWIM" c = (.empty, .HWIM) := rfl

lemma Tvm2NpuFormat_HWIOLayout (c : DataFormat) :
    Tvm2NpuFormat "HWIO" c = (.empty, .HWIOLayout) := rfl

lemma both_mem_QnnConv2d (e : ConvCallExpr) :
    EMsg.bothOpAndAttrPadding ∈ (QnnConv2d e).1.msgs ↔
      EMsg.bothOpAndAttrPadding ∈
        (convPadResolve e.padWidth e.attrPadding).1.msgs := by
  simp [QnnConv2d, List.mem_append]

lemma getD_mem_of_lt (l : List Int) (j : Nat) (hj : j < l.length) :
    l.getD j 0 ∈ l := by
  induction l generalizing j with
  | nil => simp at hj
  | cons a t ih =>
      cases j with
      | zero => simp
      | succ j =>
          simp only [List.getD_cons_succ]
          exact List.mem_cons_of_mem _ (ih j (by simpa using hj))

/-- C5: the error-accumulator combine is associative; the combined
message sequence is exactly the operands' sequences concatenated in
call order; combining with the zero-message error on either side is
the identity; and the boolean predicate holds iff at least one message
is held. -/
theorem error_accumulator_algebra_c5 (a b c : EthosnError) :
    (a.combine b).combine c = a.combine (b.combine c) ∧
    (a.combine b).msgs = a.msgs ++ b.msgs ∧
    a.combine .empty = a ∧
    EthosnError.empty.combine a = a ∧
    (a.hasError = true ↔ a.msgs ≠ []) := by
  refine ⟨?_, rfl, ?_, ?_, EthosnError.hasError_iff a⟩
  · cases a; cases b; cases c
    simp [EthosnError.combine, List.append_assoc]
  · simp
  · simp

/-- Witness for C5 at concrete errors. -/
theorem error_accumulator_algebra_c5_witness :
    ((EthosnError.single .dtypeUnsupported).combine
        (.single .expectedConstantData)).msgs =
      [EMsg.dtypeUnsupported, EMsg.expectedConstantData] ∧
    ((EthosnError.single .dtypeUnsupported).hasError = true ↔
      (EthosnError.single .dtypeUnsupported).msgs ≠ []) :=
  ⟨(error_accumulator_algebra_c5 (.single .dtypeUnsupported)
      (.single .expectedConstantData) .empty).2.1,
   (error_accumulator_algebra_c5 (.single .dtypeUnsupported)
      .empty .empty).2.2.2.2⟩

/-- C9: the fixed-length array extractor fails on sequences longer
than 4 (leaving the output untouched); within the length bound, at the
first element exceeding the uint32 maximum it fails with exactly the
range message for that element while the slots written for the earlier
elements retain the copied values. -/
theorem asarray_range_c9 (arr : List Int) (v : Dims4) :
    (4 < arr.length →
      AsArray arr v = (.single (.dimensionsTooMany arr.length), v)) ∧
    (arr.length ≤ 4 →
      ∀ k, k < arr.length → (∀ j, j < k → arr.getD j 0 ≤ u32max) →
        u32max < arr.getD k 0 →
        (AsArray arr v).1.msgs = [.axisSizeTooLarge (arr.getD k 0)] ∧
          ∀ j, j < k → (AsArray arr v).2.get j = toU32 (arr.getD j 0)) := by
  constructor
  · intro h
    rw [AsArray, if_pos h]
  · intro h4 k hk hok hbad
    rw [AsArray, if_neg (by omega)]
    have hb := asArrayGo_bad arr 0 v k hk hok hbad (by omega)
    refine ⟨by rw [hb.1]; rfl, fun j hj => ?_⟩
    simpa using hb.2 j hj

/-- Witness for C9: a 5-element sequence fails with the dimensions
message; a range failure at index 1 keeps slot 0's copied value. -/
theorem asarray_range_c9_witness :
    AsArray [1, 2, 3, 4, 5] ⟨0, 0, 0, 0⟩ =
      (.single (.dimensionsTooMany 5), ⟨0, 0, 0, 0⟩) ∧
    (AsArray [7, 4294967296, 9] ⟨0, 0, 0, 0⟩).1.msgs =
      [EMsg.axisSizeTooLarge 4294967296] ∧
    (AsArray [7, 4294967296, 9] ⟨0, 0, 0, 0⟩).2.get 0 = 7 := by
  refine ⟨(asarray_range_c9 [1, 2, 3, 4, 5] ⟨0, 0, 0, 0⟩).1 (by decide),
    ?_, ?_⟩
  · exact ((asarray_range_c9 [7, 4294967296, 9] ⟨0, 0, 0, 0⟩).2 (by decide) 1
      (by decide) (fun j hj => by interval_cases j; decide) (by decide)).1
  · have h := ((asarray_range_c9 [7, 4294967296, 9] ⟨0, 0, 0, 0⟩).2 (by decide)
      1 (by decide) (fun j hj => by interval_cases j; decide) (by decide)).2
      0 (by decide)
    rw [h]; decide

/-- C8 (amended): stride conversion fails iff the input does not have
exactly 2 elements or an element exceeds the uint32 maximum; a
2-element in-range (h, w) input yields the axis-swapped stride (w, h). -/
theorem stride_swap_c8 (strides : List Int) (npu : Stride) :
    ((Tvm2NpuStride strides npu).1.hasError = true ↔
      (strides.length ≠ 2 ∨ ∃ x ∈ strides, u32max < x)) ∧
    (∀ h w, strides = [h, w] → 0 ≤ h → h ≤ u32max → 0 ≤ w → w ≤ u32max →
      Tvm2NpuStride strides npu = (.empty, ⟨w.toNat, h.toNat⟩)) := by
  constructor
  · simp only [Tvm2NpuStride]
    by_cases hl : strides.length = 2
    · have h4 : strides.length ≤ 4 := by omega
      rw [if_neg (by omega)]
      by_cases hE : (AsArray strides ⟨0, 0, 0, 0⟩).1.hasError = true
      · rw [if_pos hE]
        simp only [hE, true_iff]
        exact Or.inr ((AsArray_hasError_iff strides ⟨0, 0, 0, 0⟩ h4).mp hE)
      · rw [if_neg hE]
        simp only [EthosnError.hasError_empty, hl]
        constructor
        · intro hfalse; simp at hfalse
        · rintro (h2 | hex)
          · exact absurd rfl h2
          · exact absurd
              ((AsArray_hasError_iff strides ⟨0, 0, 0, 0⟩ h4).mpr hex) hE
    · rw [if_pos hl]
      simp [hl]
  · rintro h w rfl h0 h1 w0 w1
    have h4 : ([h, w] : List Int).length ≤ 4 := by simp
    have hok : ∀ x ∈ [h, w], x ≤ u32max := by
      intro x hx
      rcases (by simpa using hx : x = h ∨ x = w) with rfl | rfl <;> assumption
    have g0 := AsArray_get_write [h, w] ⟨0, 0, 0, 0⟩ 0 h4 hok (by simp)
    have g1 := AsArray_get_write [h, w] ⟨0, 0, 0, 0⟩ 1 h4 hok (by simp)
    simp only [Tvm2NpuStride]
    rw [if_neg (by simp), if_neg (by simp [AsArray_ok [h, w] ⟨0, 0, 0, 0⟩ h4 hok])]
    simp [g0, g1, toU32_of_nonneg_le h h0 h1, toU32_of_nonneg_le w w0 w1]

/-- Witness for C8 at concrete inputs. -/
theorem stride_swap_c8_witness :
    Tvm2NpuStride [2, 3] ⟨0, 0⟩ = (.empty, ⟨3, 2⟩) ∧
    (Tvm2NpuStride [1, 2, 3] ⟨0, 0⟩).1.hasError = true :=
  ⟨(stride_swap_c8 [2, 3] ⟨0, 0⟩).2 2 3 rfl (by decide) (by decide)
      (by decide) (by decide),
   (stride_swap_c8 [1, 2, 3] ⟨0, 0⟩).1.mpr (Or.inl (by decide))⟩

/-- Counterexample for C8 as stated: the input [4294967296, 1] has
exactly 2 elements yet stride conversion fails (with a range message),
so "fails iff not exactly 2 elements" is false. -/
theorem stride_swap_counter_c8 :
    ([(4294967296 : Int), 1].length = 2) ∧
    (Tvm2NpuStride [(4294967296 : Int), 1] ⟨0, 0⟩).1.hasError = true := by
  constructor
  · rfl
  · decide

/-- C7 (amended): for shape arrays of at most 4 elements whose values
lie in the uint32 range and whose first element is not 1, conversion
returns exactly the batch-size error while every dimension present is
still populated from the input (slots past the input's length retain
their prior values). -/
theorem shape_batch_c7 (a : Int) (rest : List Int) (npu : Dims4)
    (hlen : (a :: rest).length ≤ 4)
    (hrange : ∀ x ∈ a :: rest, 0 ≤ x ∧ x ≤ u32max)
    (ha : a ≠ 1) :
    (Tvm2NpuShape (a :: rest) npu).1.msgs = [.batchSize a.toNat] ∧
    (∀ j, j < (a :: rest).length →
      (Tvm2NpuShape (a :: rest) npu).2.get j = ((a :: rest).getD j 0).toNat) ∧
    (∀ j, (a :: rest).length ≤ j → j < 4 →
      (Tvm2NpuShape (a :: rest) npu).2.get j = npu.get j) := by
  have hok : ∀ x ∈ a :: rest, x ≤ u32max := fun x hx => (hrange x hx).2
  have hA1 : (AsArray (a :: rest) npu).1 = .empty :=
    AsArray_ok _ _ hlen hok
  have hget : ∀ j, j < (a :: rest).length →
      (AsArray (a :: rest) npu).2.get j = ((a :: rest).getD j 0).toNat := by
    intro j hj
    rw [AsArray_get_write _ _ j hlen hok hj,
      toU32_of_nonneg_le _ (hrange _ (getD_mem_of_lt _ j hj)).1
        (hrange _ (getD_mem_of_lt _ j hj)).2]
  have hfront : (AsArray (a :: rest) npu).2.get 0 = a.toNat := by
    simpa using hget 0 (by simp)
  have hfront1 : (AsArray (a :: rest) npu).2.get 0 ≠ 1 := by
    rw [hfront]
    have := (hrange a (by simp)).1
    omega
  simp only [Tvm2NpuShape]
  rw [if_pos hfront1]
  refine ⟨by simp [hA1, hfront], hget, fun j hj hj4 => ?_⟩
  exact AsArray_get_ge _ _ j hlen hj

/-- Witness for C7 at the in-range shape [2, 3, 4, 5]. -/
theorem shape_batch_c7_witness :
    (Tvm2NpuShape [2, 3, 4, 5] ⟨1, 1, 1, 1⟩).1.msgs = [EMsg.batchSize 2] ∧
    (Tvm2NpuShape [2, 3, 4, 5] ⟨1, 1, 1, 1⟩).2.get 1 = 3 := by
  have h := shape_batch_c7 2 [3, 4, 5] ⟨1, 1, 1, 1⟩ (by decide)
    (by decide) (by decide)
  refine ⟨h.1, ?_⟩
  rw [h.2.1 1 (by decide)]; decide

/-- Counterexample for C7 as stated: the 5-element shape [5,5,5,5,5]
has first element 5 ≠ 1, yet conversion reports only the dimensions
error (no batch-size message) and populates nothing; and the shape
[1 - 2^32, 2, 2, 2] has first element ≠ 1 yet conversion reports no
error at all (the value wraps to 1). -/
theorem shape_batch_counter_c7 :
    (Tvm2NpuShape [5, 5, 5, 5, 5] ⟨1, 1, 1, 1⟩).1.msgs =
      [EMsg.dimensionsTooMany 5] ∧
    (Tvm2NpuShape [5, 5, 5, 5, 5] ⟨1, 1, 1, 1⟩).2 = ⟨1, 1, 1, 1⟩ ∧
    (Tvm2NpuShape [1 - 4294967296, 2, 2, 2] ⟨1, 1, 1, 1⟩).1.msgs = [] := by
  refine ⟨?_, ?_, ?_⟩ <;> decide

/-- C4 (amended): for element values within the uint32 range, flat
padding of length 1/2/4 and the nested 4-by-2 form produce exactly the
documented canonical (top, bottom, left, right) reorderings; any other
flat length or outer size fails with the corresponding size-mismatch
message and leaves the output padding untouched.  (An element
exceeding the range instead fails with a range message, see the
counterexample.) -/
theorem padding_forms_c4 (l : List Int) (n : List (List Int)) (npu : Padding)
    (hl : ∀ x ∈ l, 0 ≤ x ∧ x ≤ u32max) :
    (∀ p, l = [p] →
      Tvm2NpuPad l npu = (.empty, ⟨p.toNat, p.toNat, p.toNat, p.toNat⟩)) ∧
    (∀ h w, l = [h, w] →
      Tvm2NpuPad l npu = (.empty, ⟨h.toNat, h.toNat, w.toNat, w.toNat⟩)) ∧
    (∀ t lf b r, l = [t, lf, b, r] →
      Tvm2NpuPad l npu = (.empty, ⟨t.toNat, b.toNat, lf.toNat, r.toNat⟩)) ∧
    (l.length ∉ ([1, 2, 4] : List Nat) →
      (Tvm2NpuPad l npu).2 = npu ∧
      (Tvm2NpuPad l npu).1.msgs =
        [if 4 < l.length then EMsg.dimensionsTooMany l.length
         else EMsg.paddingTupleSize l.length]) ∧
    (∀ p0 hlo hhi wlo whi p3, n = [p0, [hlo, hhi], [wlo, whi], p3] →
      0 ≤ hlo → hlo ≤ u32max → 0 ≤ hhi → hhi ≤ u32max →
      0 ≤ wlo → wlo ≤ u32max → 0 ≤ whi → whi ≤ u32max →
      Tvm2NpuPadNested n npu =
        (.empty, ⟨hlo.toNat, hhi.toNat, wlo.toNat, whi.toNat⟩)) ∧
    (n.length ≠ 4 →
      Tvm2NpuPadNested n npu =
        (.single (.paddingTupleSizeNested n.length), npu)) := by
  refine ⟨?_, ?_, ?_, ?_, ?_, ?_⟩
  · rintro p rfl
    have h4 : ([p] : List Int).length ≤ 4 := by simp
    have hok : ∀ x ∈ [p], x ≤ u32max := fun x hx => (hl x hx).2
    have g0 := AsArray_get_write [p] ⟨0, 0, 0, 0⟩ 0 h4 hok (by simp)
    simp only [Tvm2NpuPad]
    rw [if_neg (by simp [AsArray_ok [p] ⟨0, 0, 0, 0⟩ h4 hok])]
    simp [g0, toU32_of_nonneg_le p (hl p (by simp)).1 (hl p (by simp)).2]
  · rintro h w rfl
    have h4 : ([h, w] : List Int).length ≤ 4 := by simp
    have hok : ∀ x ∈ [h, w], x ≤ u32max := fun x hx => (hl x hx).2
    have g0 := AsArray_get_write [h, w] ⟨0, 0, 0, 0⟩ 0 h4 hok (by simp)
    have g1 := AsArray_get_write [h, w] ⟨0, 0, 0, 0⟩ 1 h4 hok (by simp)
    simp only [Tvm2NpuPad]
    rw [if_neg (by simp [AsArray_ok [h, w] ⟨0, 0, 0, 0⟩ h4 hok])]
    simp [g0, g1, toU32_of_nonneg_le h (hl h (by simp)).1 (hl h (by simp)).2,
      toU32_of_nonneg_le w (hl w (by simp)).1 (hl w (by simp)).2]
  · rintro t lf b r rfl
    have h4 : ([t, lf, b, r] : List Int).length ≤ 4 := by simp
    have hok : ∀ x ∈ [t, lf, b, r], x ≤ u32max := fun x hx => (hl x hx).2
    have g0 := AsArray_get_write [t, lf, b, r] ⟨0, 0, 0, 0⟩ 0 h4 hok (by simp)
    have g1 := AsArray_get_write [t, lf, b, r] ⟨0, 0, 0, 0⟩ 1 h4 hok (by simp)
    have g2 := AsArray_get_write [t, lf, b, r] ⟨0, 0, 0, 0⟩ 2 h4 hok (by simp)
    have g3 := AsArray_get_write [t, lf, b, r] ⟨0, 0, 0, 0⟩ 3 h4 hok (by simp)
    simp only [Tvm2NpuPad]
    rw [if_neg (by simp [AsArray_ok [t, lf, b, r] ⟨0, 0, 0, 0⟩ h4 hok])]
    simp [g0, g1, g2, g3,
      toU32_of_nonneg_le t (hl t (by simp)).1 (hl t (by simp)).2,
      toU32_of_nonneg_le lf (hl lf (by simp)).1 (hl lf (by simp)).2,
      toU32_of_nonneg_le b (hl b (by simp)).1 (hl b (by simp)).2,
      toU32_of_nonneg_le r (hl r (by simp)).1 (hl r (by simp)).2]
  · intro hmem
    rcases l with _ | ⟨a, _ | ⟨b, _ | ⟨c, _ | ⟨d, _ | ⟨f, t⟩⟩⟩⟩⟩
    · constructor <;> simp [Tvm2NpuPad, AsArray, asArrayGo]
    · simp at hmem
    · simp at hmem
    · have h4 : ([a, b, c] : List Int).length ≤ 4 := by simp
      have hok : ∀ x ∈ [a, b, c], x ≤ u32max := fun x hx => (hl x hx).2
      simp only [Tvm2NpuPad]
      rw [if_neg (by simp [AsArray_ok [a, b, c] ⟨0, 0, 0, 0⟩ h4 hok])]
      constructor <;> simp
    · simp at hmem
    · have h5 : 4 < (a :: b :: c :: d :: f :: t).length := by simp
      simp only [Tvm2NpuPad, AsArray, if_pos h5]
      constructor <;> simp [h5]
  · rintro p0 hlo hhi wlo whi p3 rfl h1 h2 h3 h4' h5 h6 h7 h8
    have h4 : ([hlo, hhi, wlo, whi] : List Int).length ≤ 4 := by simp
    have hok : ∀ x ∈ [hlo, hhi, wlo, whi], x ≤ u32max := by
      intro x hx
      rcases (by simpa using hx : x = hlo ∨ x = hhi ∨ x = wlo ∨ x = whi) with
        rfl | rfl | rfl | rfl <;> assumption
    have g0 := AsArray_get_write [hlo, hhi, wlo, whi] ⟨0, 0, 0, 0⟩ 0 h4 hok (by simp)
    have g1 := AsArray_get_write [hlo, hhi, wlo, whi] ⟨0, 0, 0, 0⟩ 1 h4 hok (by simp)
    have g2 := AsArray_get_write [hlo, hhi, wlo, whi] ⟨0, 0, 0, 0⟩ 2 h4 hok (by simp)
    have g3 := AsArray_get_write [hlo, hhi, wlo, whi] ⟨0, 0, 0, 0⟩ 3 h4 hok (by simp)
    simp only [Tvm2NpuPadNested]
    rw [if_neg (by simp)]
    simp only [List.getD_cons_zero, List.getD_cons_succ]
    rw [if_neg (by simp [AsArray_ok [hlo, hhi, wlo, whi] ⟨0, 0, 0, 0⟩ h4 hok])]
    simp [g0, g1, g2, g3, toU32_of_nonneg_le hlo h1 h2,
      toU32_of_nonneg_le hhi h3 h4', toU32_of_nonneg_le wlo h5 h6,
      toU32_of_nonneg_le whi h7 h8]
  · intro hne
    rw [Tvm2NpuPadNested, if_pos hne]

/-- Witness for C4 at concrete padding inputs of every accepted form
and one rejected length. -/
theorem padding_forms_c4_witness :
    Tvm2NpuPad [3] Padding.zero = (.empty, ⟨3, 3, 3, 3⟩) ∧
    Tvm2NpuPad [1, 2] Padding.zero = (.empty, ⟨1, 1, 2, 2⟩) ∧
    Tvm2NpuPad [1, 2, 3, 4] Padding.zero = (.empty, ⟨1, 3, 2, 4⟩) ∧
    (Tvm2NpuPad [9, 9, 9] Padding.zero).1.msgs = [EMsg.paddingTupleSize 3] ∧
    Tvm2NpuPadNested [[0, 0], [1, 2], [3, 4], [0, 0]] Padding.zero =
      (.empty, ⟨1, 2, 3, 4⟩) ∧
    Tvm2NpuPadNested [[0, 0]] Padding.zero =
      (.single (.paddingTupleSizeNested 1), Padding.zero) := by
  refine ⟨(padding_forms_c4 [3] [] Padding.zero (by decide)).1 3 rfl,
    (padding_forms_c4 [1, 2] [] Padding.zero (by decide)).2.1 1 2 rfl,
    (padding_forms_c4 [1, 2, 3, 4] [] Padding.zero (by decide)).2.2.1
      1 2 3 4 rfl, ?_, ?_, ?_⟩
  · have h := (padding_forms_c4 [9, 9, 9] [] Padding.zero (by decide)).2.2.2.1
      (by decide)
    rw [h.2]; decide
  · exact (padding_forms_c4 [] [[0, 0], [1, 2], [3, 4], [0, 0]] Padding.zero
      (by decide)).2.2.2.2.1 [0, 0] 1 2 3 4 [0, 0] rfl (by decide) (by decide)
      (by decide) (by decide) (by decide) (by decide) (by decide) (by decide)
  · exact (padding_forms_c4 [] [[0, 0]] Padding.zero
      (by decide)).2.2.2.2.2 (by decide)

/-- Counterexample for C4 as stated: the 1-element padding
[4294967296] does not yield the uniform margins (p, p, p, p) — the
conversion fails with a range message and leaves the padding
untransformed. -/
theorem padding_forms_counter_c4 :
    (Tvm2NpuPad [(4294967296 : Int)] Padding.zero).1.msgs =
      [EMsg.axisSizeTooLarge 4294967296] ∧
    (Tvm2NpuPad [(4294967296 : Int)] Padding.zero).2 = Padding.zero := by
  constructor <;> decide

lemma splitIndicesSizes_eq_zipWith (is : List Int) (last : Int) :
    splitIndicesSizes is last =
      List.zipWith (fun a b => a - b) is (last :: is) := by
  induction is generalizing last with
  | nil => rfl
  | cons i rest ih => simp [splitIndicesSizes, ih]

/-- C3: split segment sizes — for a section count n > 0 the size list
is n copies of extent / n (truncating division); for cut indices
[i1, ..., ik] it is the consecutive differences followed by the
remainder up to the axis extent; in particular extent 9 with indices
[3, 6] yields [3, 3, 3]. -/
theorem split_sizes_c3 (e : SplitInput) (p : SplitParams)
    (hp : p.split_info.sizes = []) :
    (∀ nsec, e.ios = .sections nsec → 0 < nsec →
      (Split e p).2.split_info.sizes =
        List.replicate nsec.toNat
          (Int.tdiv ((Tvm2NpuShape e.shape ⟨1, 1, 1, 1⟩).2.get e.axis) nsec)) ∧
    (∀ is, e.ios = .indices is →
      (Split e p).2.split_info.sizes =
        List.zipWith (fun a b => a - b) is (0 :: is) ++
          [((Tvm2NpuShape e.shape ⟨1, 1, 1, 1⟩).2.get e.axis : Int) -
            is.getLastD 0]) ∧
    (Split ⟨[1, 9, 9, 4], ⟨.uint, 8, 1⟩, 1, .indices [3, 6]⟩
      defaultSplitParams).2.split_info.sizes = [3, 3, 3] := by
  refine ⟨?_, ?_, by decide⟩
  · intro nsec hios hpos
    simp [Split, hios, hp]
  · intro is hios
    simp [Split, hios, hp, splitIndicesSizes_eq_zipWith]

/-- Witness for C3: an extent-8 axis split into 2 sections yields
segment sizes [4, 4]. -/
theorem split_sizes_c3_witness :
    (Split ⟨[1, 8, 8, 4], ⟨.uint, 8, 1⟩, 1, .sections 2⟩
      defaultSplitParams).2.split_info.sizes = [4, 4] := by
  have h := (split_sizes_c3 ⟨[1, 8, 8, 4], ⟨.uint, 8, 1⟩, 1, .sections 2⟩
    defaultSplitParams rfl).1 2 rfl (by decide)
  rw [h]; decide

/-- A fully valid (error-free) conv2d call tree: NHWC 1x8x8x4 uint8
input, 3x3 HWIO kernel, zero-points 10/0/5, scales 1/2, 1/10, 1/5,
attribute padding (1,1), stride (1,1), dilation (1,1), groups 1. -/
def convCleanExpr : ConvCallExpr :=
  ⟨none, [], ⟨.uint, 8, 1⟩, [1, 8, 8, 4], ⟨.uint, 8, 1⟩,
   some 10, some 0, some (1 / 2 : Rat), some (1 / 10 : Rat),
   some 5, some (1 / 5 : Rat),
   [1, 1], [1, 1], [1, 1], 1, some 4, [3, 3, 4, 4], ⟨.uint, 8, 1⟩⟩

/-- `convCleanExpr` with a non-constant input zero point, making the
translation fail. -/
def convBadExpr : ConvCallExpr :=
  ⟨none, [], ⟨.uint, 8, 1⟩, [1, 8, 8, 4], ⟨.uint, 8, 1⟩,
   none, some 0, some (1 / 2 : Rat), some (1 / 10 : Rat),
   some 5, some (1 / 5 : Rat),
   [1, 1], [1, 1], [1, 1], 1, some 4, [3, 3, 4, 4], ⟨.uint, 8, 1⟩⟩

/-- `convCleanExpr` with channel count 4 equal to group count 4:
a depthwise convolution. -/
def convDepthwiseExpr : ConvCallExpr :=
  ⟨none, [], ⟨.uint, 8, 1⟩, [1, 8, 8, 4], ⟨.uint, 8, 1⟩,
   some 10, some 0, some (1 / 2 : Rat), some (1 / 10 : Rat),
   some 5, some (1 / 5 : Rat),
   [1, 1], [1, 1], [1, 1], 4, some 4, [3, 3, 1, 4], ⟨.uint, 8, 1⟩⟩

/-- `convCleanExpr` preceded by a standalone pad operator while the
convolution's own padding attribute (1,1) is non-zero. -/
def convBothPadExpr : ConvCallExpr :=
  ⟨some [[0, 0], [1, 1], [1, 1], [0, 0]], [1, 8, 8, 4], ⟨.uint, 8, 1⟩,
   [1, 10, 10, 4], ⟨.uint, 8, 1⟩,
   some 10, some 0, some (1 / 2 : Rat), some (1 / 10 : Rat),
   some 5, some (1 / 5 : Rat),
   [1, 1], [1, 1], [1, 1], 1, some 4, [3, 3, 4, 4], ⟨.uint, 8, 1⟩⟩

/-- A fully valid 2-input concatenation along axis 1. -/
def concatCleanExpr : ConcatInput :=
  ⟨1, some (1 : Rat), some 0, [some (1 : Rat), some (1 : Rat)],
   [some 0, some 0],
   [([1, 4, 4, 4], ⟨.uint, 8, 1⟩), ([1, 4, 4, 4], ⟨.uint, 8, 1⟩)]⟩

/-- `concatCleanExpr` with a non-constant output scale, making the
translation fail. -/
def concatBadExpr : ConcatInput :=
  ⟨1, none, some 0, [some (1 : Rat), some (1 : Rat)],
   [some 0, some 0],
   [([1, 4, 4, 4], ⟨.uint, 8, 1⟩), ([1, 4, 4, 4], ⟨.uint, 8, 1⟩)]⟩

/-- A fully valid split of an extent-9 axis into 3 sections. -/
def splitCleanExpr : SplitInput :=
  ⟨[1, 9, 9, 4], ⟨.uint, 8, 1⟩, 1, .sections 3⟩

/-- `splitCleanExpr` with an unsupported (int8) element type, making
the translation fail. -/
def splitBadExpr : SplitInput :=
  ⟨[1, 9, 9, 4], ⟨.int, 8, 1⟩, 1, .sections 3⟩

/-- C1: if a standalone pad operator feeds the convolution and the
attribute padding converts to a non-zero padding, the accumulated
error contains the "both op and attr padding exist" message (and only
then); the final descriptor padding comes from the pad operator's
pad_width when the pad operator exists and from the attribute padding
when it does not. -/
theorem conv_padding_sources_c1 (e : ConvCallExpr) :
    (∀ pw, e.padWidth = some pw →
      (EMsg.bothOpAndAttrPadding ∈ (QnnConv2d e).1.msgs ↔
        (Tvm2NpuPad e.attrPadding Padding.zero).2 ≠ Padding.zero) ∧
      (QnnConv2d e).2.conv_info.padding =
        (Tvm2NpuPadNested pw (Tvm2NpuPad e.attrPadding Padding.zero).2).2) ∧
    (e.padWidth = none →
      EMsg.bothOpAndAttrPadding ∉ (QnnConv2d e).1.msgs ∧
      (QnnConv2d e).2.conv_info.padding =
        (Tvm2NpuPad e.attrPadding Padding.zero).2) := by
  constructor
  · intro pw hpw
    constructor
    · rw [both_mem_QnnConv2d, hpw, both_mem_convPadResolve_some]
    · rw [QnnConv2d_padding, hpw, convPadResolve_snd_some]
  · intro hpw
    constructor
    · rw [both_mem_QnnConv2d, hpw, convPadResolve_none]
      exact both_not_mem_Tvm2NpuPad _ _
    · rw [QnnConv2d_padding, hpw, convPadResolve_none]

/-- Witness for C1: the conflicting input produces the "both op and
attr padding exist" message; without a pad operator the descriptor
padding is the converted attribute padding (1,1) → (1,1,1,1). -/
theorem conv_padding_sources_c1_witness :
    EMsg.bothOpAndAttrPadding ∈ (QnnConv2d convBothPadExpr).1.msgs ∧
    (QnnConv2d convCleanExpr).2.conv_info.padding = ⟨1, 1, 1, 1⟩ := by
  constructor
  · exact ((conv_padding_sources_c1 convBothPadExpr).1 _ rfl).1.mpr (by decide)
  · rw [((conv_padding_sources_c1 convCleanExpr).2 rfl).2]; decide

/-- C6: the depthwise flag is true iff the declared channel count is
defined, structurally equals the group count, and that count is not 1;
the weights data format is HWIM when depthwise and HWIO otherwise. -/
theorem conv_depthwise_c6 (e : ConvCallExpr) :
    ((QnnConv2d e).2.is_depthwise = true ↔
      (e.channels = some e.groups ∧ e.groups ≠ 1)) ∧
    (QnnConv2d e).2.weights_info.dataFormat =
      (if (QnnConv2d e).2.is_depthwise then DataFormat.HWIM
       else DataFormat.HWIOLayout) := by
  constructor
  · rw [QnnConv2d_is_depthwise]
    cases hc : e.channels <;> simp [convIsDepthwise, hc]
  · rw [QnnConv2d_weights_format, QnnConv2d_is_depthwise]
    cases hdw : convIsDepthwise e.channels e.groups <;>
      simp [hdw, Tvm2NpuFormat_HWIOLayout, Tvm2NpuFormat_HWIM]

/-- Witness for C6: channels 4 = groups 4 ≠ 1 gives a depthwise
translation with HWIM weights layout. -/
theorem conv_depthwise_c6_witness :
    (QnnConv2d convDepthwiseExpr).2.is_depthwise = true ∧
    (QnnConv2d convDepthwiseExpr).2.weights_info.dataFormat = .HWIM := by
  have h := conv_depthwise_c6 convDepthwiseExpr
  have hdw : (QnnConv2d convDepthwiseExpr).2.is_depthwise = true :=
    h.1.mpr ⟨rfl, by decide⟩
  refine ⟨hdw, ?_⟩
  rw [h.2, hdw]
  rfl

/-- C10: when the translated depthwise flag is true the conv2d binding
computes its verdict from the depthwise oracle (and is independent of
the ordinary convolution oracle); when the flag is false it computes
the verdict from the ordinary oracle (and is independent of the
depthwise oracle). -/
theorem conv_dispatch_c10 (e : ConvCallExpr)
    (oc oc2 od od2 :
      TensorInfo → TensorInfo → ConvolutionInfo → TensorInfo → Bool) :
    ((QnnConv2d e).2.is_depthwise = true →
      supportConv2d oc od e =
        (!(QnnConv2d e).1.hasError &&
          od (QnnConv2d e).2.bias_info (QnnConv2d e).2.weights_info
            (QnnConv2d e).2.conv_info (QnnConv2d e).2.activation_info) ∧
      supportConv2d oc od e = supportConv2d oc2 od e) ∧
    ((QnnConv2d e).2.is_depthwise = false →
      supportConv2d oc od e =
        (!(QnnConv2d e).1.hasError &&
          oc (QnnConv2d e).2.bias_info (QnnConv2d e).2.weights_info
            (QnnConv2d e).2.conv_info (QnnConv2d e).2.activation_info) ∧
      supportConv2d oc od e = supportConv2d oc od2 e) := by
  constructor
  · intro hdw
    constructor <;> simp [supportConv2d, hdw]
  · intro hdw
    constructor <;> simp [supportConv2d, hdw]

/-- Witness for C10: the depthwise input's verdict comes from the
depthwise oracle even when the ordinary oracle answers false, and
conversely for the non-depthwise input. -/
theorem conv_dispatch_c10_witness :
    supportConv2d (fun _ _ _ _ => false) (fun _ _ _ _ => true)
      convDepthwiseExpr = true ∧
    supportConv2d (fun _ _ _ _ => true) (fun _ _ _ _ => false)
      convCleanExpr = true := by
  constructor
  · rw [((conv_dispatch_c10 convDepthwiseExpr (fun _ _ _ _ => false)
      (fun _ _ _ _ => false) (fun _ _ _ _ => true)
      (fun _ _ _ _ => true)).1 (by decide)).1]
    decide
  · rw [((conv_dispatch_c10 convCleanExpr (fun _ _ _ _ => true)
      (fun _ _ _ _ => true) (fun _ _ _ _ => false)
      (fun _ _ _ _ => false)).2 (by decide)).1]
    decide

/-- C2: each capability binding returns false whenever the translator
accumulated any error — independently of the oracle — and otherwise
returns the oracle's verdict on the assembled descriptors verbatim. -/
theorem binding_shortcircuit_c2
    (oc od : TensorInfo → TensorInfo → ConvolutionInfo → TensorInfo → Bool)
    (ocat : List TensorInfo → ConcatInfo → Bool)
    (osp : TensorInfo → SplitInfo → Bool)
    (e : ConvCallExpr) (ec : ConcatInput) (es : SplitInput) :
    ((QnnConv2d e).1.hasError = true → supportConv2d oc od e = false) ∧
    ((QnnConv2d e).1.hasError = false →
      supportConv2d oc od e =
        (if (QnnConv2d e).2.is_depthwise then
          od (QnnConv2d e).2.bias_info (QnnConv2d e).2.weights_info
            (QnnConv2d e).2.conv_info (QnnConv2d e).2.activation_info
        else
          oc (QnnConv2d e).2.bias_info (QnnConv2d e).2.weights_info
            (QnnConv2d e).2.conv_info (QnnConv2d e).2.activation_info)) ∧
    ((Concatenate ec defaultConcatParams).1.hasError = true →
      supportConcatenate ocat ec = false) ∧
    ((Concatenate ec defaultConcatParams).1.hasError = false →
      supportConcatenate ocat ec =
        ocat (Concatenate ec defaultConcatParams).2.input_infos
          (Concatenate ec defaultConcatParams).2.concat_info) ∧
    ((Split es defaultSplitParams).1.hasError = true →
      supportSplit osp es = false) ∧
    ((Split es defaultSplitParams).1.hasError = false →
      supportSplit osp es =
        osp (Split es defaultSplitParams).2.input_info
          (Split es defaultSplitParams).2.split_info) := by
  refine ⟨?_, ?_, ?_, ?_, ?_, ?_⟩ <;> intro h <;>
    simp [supportConv2d, supportConcatenate, supportSplit, h]

/-- Witness for C2: each binding at one erroring and one error-free
concrete input with constant-true oracles. -/
theorem binding_shortcircuit_c2_witness :
    supportConv2d (fun _ _ _ _ => true) (fun _ _ _ _ => true)
      convBadExpr = false ∧
    supportConv2d (fun _ _ _ _ => true) (fun _ _ _ _ => false)
      convCleanExpr = true ∧
    supportConcatenate (fun _ _ => true) concatBadExpr = false ∧
    supportConcatenate (fun _ _ => true) concatCleanExpr = true ∧
    supportSplit (fun _ _ => true) splitBadExpr = false ∧
    supportSplit (fun _ _ => true) splitCleanExpr = true := by
  refine ⟨?_, ?_, ?_, ?_, ?_, ?_⟩
  · exact (binding_shortcircuit_c2 (fun _ _ _ _ => true) (fun _ _ _ _ => true)
      (fun _ _ => true) (fun _ _ => true) convBadExpr concatCleanExpr
      splitCleanExpr).1 (by decide)
  · rw [(binding_shortcircuit_c2 (fun _ _ _ _ => true) (fun _ _ _ _ => false)
      (fun _ _ => true) (fun _ _ => true) convCleanExpr concatCleanExpr
      splitCleanExpr).2.1 (by decide)]
    decide
  · exact (binding_shortcircuit_c2 (fun _ _ _ _ => true) (fun _ _ _ _ => true)
      (fun _ _ => true) (fun _ _ => true) convCleanExpr concatBadExpr
      splitCleanExpr).2.2.1 (by decide)
  · rw [(binding_shortcircuit_c2 (fun _ _ _ _ => true) (fun _ _ _ _ => true)
      (fun _ _ => true) (fun _ _ => true) convCleanExpr concatCleanExpr
      splitCleanExpr).2.2.2.1 (by decide)]
  · exact (binding_shortcircuit_c2 (fun _ _ _ _ => true) (fun _ _ _ _ => true)
      (fun _ _ => true) (fun _ _ => true) convCleanExpr concatCleanExpr
      splitBadExpr).2.2.2.2.1 (by decide)
  · rw [(binding_shortcircuit_c2 (fun _ _ _ _ => true) (fun _ _ _ _ => true)
      (fun _ _ => true) (fun _ _ => true) convCleanExpr concatCleanExpr
      splitCleanExpr).2.2.2.2.2 (by decide)]
